import Mathlib

/-!
Verification of the SmartLead bounced-emails ingestion service.

A shallow embedding of `bounced_emails.py`: the ingestion pipeline
`fetch_bounced_emails` (credential check, campaign enumeration,
per-campaign pagination of bounce statistics, recency filtering,
single-slot snapshot replacement, append-only fetch log) and the read
endpoint `get_bounced_emails`.

Modelling conventions:
* instants are integers (seconds); `datetime.now(utc) - timedelta(days=7)`
  becomes `now - 7 * 86400`;
* the library parser `datetime.fromisoformat` is an abstract parameter
  `parseTs : String → Option Int` (`none` models the `ValueError` the code
  catches); the code's own preprocessing `.replace('Z', '+00:00')` is kept
  (`String.replace` replaces every occurrence, like Python `str.replace`);
* the provider is a function from campaign id and offset to a page
  response; HTTP/transport failures and JSON shapes are an inductive type;
* exceptions the code catches are modelled as `Option`/`Except` values and
  explicit break branches; the embedded functions are total, so "no
  exception propagates" corresponds to the functions returning plain
  results;
* the unbounded `while True` pagination loop gets an explicit `fuel`
  bound; claims about terminating providers are stated with enough fuel;
* the SQLite database is an explicit state: the `bounced_emails` rows
  (data plus `created_at`) and the `fetch_log` rows (status, message).
  The delete-then-insert of a successful run happens inside one committed
  transaction in the source, so it is one transition of the model.
-/

namespace BouncedEmails

/-- Page size of the pagination loop (line 93: `limit = 100`). -/
def limit : Nat := 100

/-- The placeholder credential (lines 58-60: `'YOUR_API_KEY_HERE'`). -/
def placeholderKey : String := "YOUR_API_KEY_HERE"

/-- The message of the `ValueError` raised at line 61 when the key is
unset or still the placeholder. -/
def missingKeyMsg : String :=
  "Please set your SmartLead API key in the SMARTLEAD_API_KEY environment variable"

/-- `datetime.now(timezone.utc) - timedelta(days=7)` (line 66), in
seconds. -/
def sevenDaysAgo (now : Int) : Int := now - 7 * 86400

/-- A raw bounce entry of a statistics page.  The code reads every field
with `email.get(...)`, so each may be absent (`none`). -/
structure RawEntry where
  lead_email : Option String
  from_email : Option String
  email_message : Option String
  email_subject : Option String
  sent_time : Option String
  sequence_number : Option Int
  is_bounced : Option Bool
deriving Repr, DecidableEq

/-- A stored bounce record: the dict appended to `all_bounced_emails`
(lines 134-145). -/
structure BounceRecord where
  email_address : Option String
  from_email : Option String
  email_message : Option String
  email_subject : Option String
  campaign_id : Option Int
  campaign_name : Option String
  email_status : String
  sent_time : String
  sequence_number : Option Int
  is_bounced : Bool
deriving Repr, DecidableEq

/-- Lines 134-145: build the stored record from the raw entry; `s` is the
entry's `sent_time` string, stored verbatim; `is_bounced` defaults to
`True` (`email.get('is_bounced', True)`). -/
def mkRecord (cid : Option Int) (cname : Option String) (e : RawEntry)
    (s : String) : BounceRecord :=
  { email_address := e.lead_email
    from_email := e.from_email
    email_message := e.email_message
    email_subject := e.email_subject
    campaign_id := cid
    campaign_name := cname
    email_status := "bounced"
    sent_time := s
    sequence_number := e.sequence_number
    is_bounced := e.is_bounced.getD true }

/-- The recency filter of lines 128-133: parse the timestamp string after
replacing `'Z'` with `'+00:00'` (every occurrence, Python `str.replace`);
a parse failure (`ValueError`, caught at line 146) excludes the record;
otherwise admit iff `sent_time >= seven_days_ago`. -/
def recencyFilter (parseTs : String → Option Int) (now : Int) (s : String) :
    Bool :=
  match parseTs (s.replace "Z" "+00:00") with
  | none => false
  | some v => decide (sevenDaysAgo now ≤ v)

/-- The per-page entry loop (lines 122-148): an entry whose `sent_time`
is falsy (absent, `None`, or the empty string, line 125) is skipped
silently; otherwise the timestamp is parsed and the record kept iff it is
within the window; a parse failure logs a warning and continues.  Returns
the records appended for the page and the `sent_time` strings that were
warned about, in entry order. -/
def processEmails (parseTs : String → Option Int) (now : Int)
    (cid : Option Int) (cname : Option String) :
    List RawEntry → List BounceRecord × List String
  | [] => ([], [])
  | e :: rest =>
    let r := processEmails parseTs now cid cname rest
    match e.sent_time with
    | none => r
    | some s =>
      if s = "" then r
      else
        match parseTs (s.replace "Z" "+00:00") with
        | none => (r.1, s :: r.2)
        | some v =>
          if sevenDaysAgo now ≤ v then (mkRecord cid cname e s :: r.1, r.2)
          else r

/-- One response of the statistics endpoint as the loop body sees it
(lines 104-116): a bare JSON list, an object with a `data` key, any other
JSON shape (line 114), or a failed request — non-success HTTP status
(`raise_for_status`, line 106) or transport error, both caught by the
`except` at line 156. -/
inductive PageResult where
  | listShape (emails : List RawEntry)
  | dataShape (emails : List RawEntry)
  | badShape
  | httpError
deriving Repr, DecidableEq

/-- Lines 104-116 condensed: the emails list the loop goes on to process,
or `none` when the iteration breaks instead (request failure or
unrecognized shape — the two break branches behave identically apart from
the warning text). -/
def pageEmails : PageResult → Option (List RawEntry)
  | .listShape es => some es
  | .dataShape es => some es
  | .badShape => none
  | .httpError => none

/-- Result of the per-campaign pagination loop: the accumulator when the
loop exits, how many page fetches were issued, and whether the loop
exited (`false` only when the model's fuel ran out; the Python loop has
no fuel bound). -/
structure PagOut where
  acc : List BounceRecord
  fetches : Nat
  finished : Bool
deriving Repr, DecidableEq

/-- The `while True` pagination loop (lines 95-158) for one campaign:
fetch the page at `offset`; break on request failure or unrecognized
shape keeping the accumulator; break on an empty page (line 118); filter
the entries into the accumulator; break after a short page (line 151);
else `offset += limit` and continue. -/
def paginate (fetch : Nat → PageResult) (parseTs : String → Option Int)
    (now : Int) (cid : Option Int) (cname : Option String) :
    Nat → Nat → List BounceRecord → PagOut
  | 0, _, acc => ⟨acc, 0, false⟩
  | fuel + 1, offset, acc =>
    match pageEmails (fetch offset) with
    | none => ⟨acc, 1, true⟩
    | some emails =>
      if emails.isEmpty then ⟨acc, 1, true⟩
      else
        let acc2 := acc ++ (processEmails parseTs now cid cname emails).1
        if emails.length < limit then ⟨acc2, 1, true⟩
        else
          let r := paginate fetch parseTs now cid cname fuel (offset + limit) acc2
          ⟨r.acc, r.fetches + 1, r.finished⟩

/-- A campaign as read from the enumerator response (lines 85-87:
`campaign.get('id')`, `campaign.get('name')`). -/
structure Campaign where
  id : Option Int
  name : Option String
deriving Repr, DecidableEq

/-- The external world of one run: the credential as read from the
process environment (line 58), the enumerator response (lines 73-76,
`Except` models the exception of a failed call), and the statistics pages
as a function of campaign id and offset (the request URL and parameters
are determined by exactly these, lines 96-102). -/
structure FetchEnv where
  apiKey : Option String
  campaignsResp : Except String (List Campaign)
  pages : Option Int → Nat → PageResult

/-- The SQLite state: `bounced_emails` rows (snapshot data and
`created_at`) and the append-only `fetch_log` rows (status, message). -/
structure Db where
  bounced_rows : List (List BounceRecord × Nat)
  fetch_log : List (String × String)
deriving Repr, DecidableEq

/-- The freshly initialized database (no rows). -/
def dbInit : Db := ⟨[], []⟩

/-- `INSERT INTO fetch_log (status, message)` (lines 178-181, 200-203). -/
def appendLog (db : Db) (status msg : String) : Db :=
  { db with fetch_log := db.fetch_log ++ [(status, msg)] }

/-- `DELETE FROM bounced_emails` (line 169). -/
def deleteBounced (db : Db) : Db := { db with bounced_rows := [] }

/-- `INSERT INTO bounced_emails (data) VALUES (?)` (lines 172-175); `t`
is the new row's `created_at`. -/
def insertBounced (db : Db) (snap : List BounceRecord) (t : Nat) : Db :=
  { db with bounced_rows := db.bounced_rows ++ [(snap, t)] }

/-- The snapshot replacement of a successful run (lines 165-184): delete
the old rows and insert the new snapshot.  In the source both statements
run inside one transaction committed at line 183, so the pair is a single
transition of the model. -/
def replaceSnapshot (db : Db) (snap : List BounceRecord) (t : Nat) : Db :=
  insertBounced (deleteBounced db) snap t

/-- The structured result dict of `fetch_bounced_emails` (lines 187-192
on success, line 207 on error). -/
inductive RunResult where
  | success (total_campaigns : Nat) (total_bounced_emails : Nat)
      (date_range : String)
  | error (message : String)
deriving Repr, DecidableEq

/-- The `date_range` string of a success result (line 191). -/
def dateRange (now : Int) : String :=
  "Last 7 days (since " ++ toString (sevenDaysAgo now) ++ ")"

/-- The success log message (line 180). -/
def successMsg (nEmails nCampaigns : Nat) : String :=
  "Successfully fetched " ++ toString nEmails ++ " bounced emails from " ++
    toString nCampaigns ++ " campaigns"

/-- `fetch_bounced_emails` (lines 43-207): check the credential (lines
58-61, raising when it is unset or the placeholder), enumerate campaigns,
run the pagination loop of every campaign into the shared
`all_bounced_emails` accumulator, replace the snapshot, log a success row
and return the success dict; any exception of the `try` block (missing
credential, enumerator failure) is caught at line 194, logged as an error
row, and converted into the error dict — nothing propagates.  `now` is
the current instant, `t` the new row's `created_at`, `fuel` the iteration
bound of each campaign's pagination loop. -/
def fetch_bounced_emails (env : FetchEnv) (parseTs : String → Option Int)
    (now : Int) (fuel : Nat) (t : Nat) (db : Db) : RunResult × Db :=
  if env.apiKey.getD placeholderKey = placeholderKey then
    (.error missingKeyMsg, appendLog db "error" missingKeyMsg)
  else
    match env.campaignsResp with
    | .error e => (.error e, appendLog db "error" e)
    | .ok campaigns =>
      let all := campaigns.foldl
        (fun acc c =>
          (paginate (env.pages c.id) parseTs now c.id c.name fuel 0 acc).acc)
        []
      let db2 := appendLog (replaceSnapshot db all t) "success"
        (successMsg all.length campaigns.length)
      (.success campaigns.length all.length (dateRange now), db2)

/-- The records one campaign contributes to the aggregate: its pagination
loop run from offset 0 with an empty accumulator. -/
def perCampaign (env : FetchEnv) (parseTs : String → Option Int) (now : Int)
    (fuel : Nat) (c : Campaign) : List BounceRecord :=
  (paginate (env.pages c.id) parseTs now c.id c.name fuel 0 []).acc

/-- `SELECT data, created_at FROM bounced_emails ORDER BY created_at DESC
LIMIT 1` (line 267): the row with the greatest `created_at`. -/
def latestRow : List (List BounceRecord × Nat) → Option (List BounceRecord × Nat)
  | [] => none
  | r :: rs =>
    match latestRow rs with
    | none => some r
    | some b => if r.2 < b.2 then some b else some r

/-- The read endpoint's response (lines 271-283). -/
inductive ReadResult where
  | success (data : List BounceRecord) (fetched_at : Nat) (total_bounced : Nat)
  | no_data
deriving Repr, DecidableEq

/-- `get_bounced_emails` (lines 258-283): serve the latest stored
snapshot with its `created_at` and length, or the no-data sentinel when
the table is empty. -/
def get_bounced_emails (db : Db) : ReadResult :=
  match latestRow db.bounced_rows with
  | some r => .success r.1 r.2 r.1.length
  | none => .no_data

/-! ## Pagination lemmas -/

/-- The pagination loop threads its accumulator: running it with
accumulator `acc` prepends `acc` to the records of a run from the empty
accumulator, and the fetch count and exit flag ignore the accumulator. -/
theorem paginate_acc (f : Nat → PageResult) (p : String → Option Int)
    (now : Int) (cid : Option Int) (cn : Option String) :
    ∀ (fuel offset : Nat) (acc : List BounceRecord),
      paginate f p now cid cn fuel offset acc =
        ⟨acc ++ (paginate f p now cid cn fuel offset []).acc,
         (paginate f p now cid cn fuel offset []).fetches,
         (paginate f p now cid cn fuel offset []).finished⟩ := by
  intro fuel
  induction fuel with
  | zero => intro offset acc; simp [paginate]
  | succ n ih =>
    intro offset acc
    simp only [paginate]
    cases hpe : pageEmails (f offset) with
    | none => simp
    | some emails =>
      by_cases he : emails.isEmpty
      · simp [he]
      · by_cases hl : emails.length < limit
        · simp [he, hl]
        · simp only [he, hl, if_neg, Bool.false_eq_true, not_false_eq_true,
            if_false]
          rw [ih (offset + limit) (acc ++ _), ih (offset + limit) ([] ++ _)]
          simp [List.append_assoc]

/-- The pagination loop consults the page response only through the
extracted emails list: two providers that agree after `pageEmails` drive
the loop identically. -/
theorem paginate_congr (f g : Nat → PageResult) (p : String → Option Int)
    (now : Int) (cid : Option Int) (cn : Option String)
    (hfg : ∀ o, pageEmails (f o) = pageEmails (g o)) :
    ∀ (fuel offset : Nat) (acc : List BounceRecord),
      paginate f p now cid cn fuel offset acc =
        paginate g p now cid cn fuel offset acc := by
  intro fuel
  induction fuel with
  | zero => intro offset acc; rfl
  | succ n ih =>
    intro offset acc
    simp only [paginate, hfg offset]
    cases pageEmails (g offset) with
    | none => rfl
    | some emails =>
      by_cases he : emails.isEmpty
      · simp [he]
      · by_cases hl : emails.length < limit
        · simp [he, hl]
        · simp [he, hl, ih]

/-- A run of the whole campaign loop: the shared accumulator collects, in
order, each campaign's own pagination records. -/
theorem foldl_paginate (env : FetchEnv) (p : String → Option Int) (now : Int)
    (fuel : Nat) :
    ∀ (cs : List Campaign) (acc : List BounceRecord),
      cs.foldl
        (fun a c =>
          (paginate (env.pages c.id) p now c.id c.name fuel 0 a).acc) acc =
        acc ++ (cs.map (perCampaign env p now fuel)).flatten := by
  intro cs
  induction cs with
  | nil => intro acc; simp
  | cons c cs ih =>
    intro acc
    simp only [List.foldl_cons, List.map_cons, List.flatten_cons]
    rw [paginate_acc, ih]
    simp [perCampaign, List.append_assoc]

/-- A page the loop cannot extract emails from (failed request or
unrecognized shape) stops the loop after that single fetch, keeping the
accumulator. -/
theorem paginate_stop (f : Nat → PageResult) (p : String → Option Int)
    (now : Int) (cid : Option Int) (cn : Option String)
    (fuel offset : Nat) (acc : List BounceRecord)
    (h : pageEmails (f offset) = none) :
    paginate f p now cid cn (fuel + 1) offset acc = ⟨acc, 1, true⟩ := by
  simp [paginate, h]

/-- A short (or empty) page stops the loop after that single fetch, with
the page's filtered records appended. -/
theorem paginate_short (f : Nat → PageResult) (p : String → Option Int)
    (now : Int) (cid : Option Int) (cn : Option String)
    (fuel offset : Nat) (acc : List BounceRecord) (es : List RawEntry)
    (h : pageEmails (f offset) = some es) (hl : es.length < limit) :
    paginate f p now cid cn (fuel + 1) offset acc =
      ⟨acc ++ (processEmails p now cid cn es).1, 1, true⟩ := by
  by_cases he : es.isEmpty
  · have : es = [] := List.isEmpty_iff.mp he
    subst this
    simp [paginate, h, processEmails]
  · simp [paginate, h, he, hl]

/-- `K` consecutive full pages starting at page index `k`: the loop
processes each in order, spends `K` fuel and `K` fetches, and continues
at page `k + K` with the filtered records of the full pages appended. -/
theorem paginate_full (f : Nat → PageResult) (p : String → Option Int)
    (now : Int) (cid : Option Int) (cn : Option String)
    (E : Nat → List RawEntry) :
    ∀ (K k fuel : Nat) (acc : List BounceRecord),
      (∀ i, i < K → pageEmails (f ((k + i) * limit)) = some (E (k + i)) ∧
        (E (k + i)).length = limit) →
      paginate f p now cid cn (K + fuel) (k * limit) acc =
        ⟨(paginate f p now cid cn fuel ((k + K) * limit)
            (acc ++ ((List.range K).map
              (fun i => (processEmails p now cid cn (E (k + i))).1)).flatten)).acc,
         (paginate f p now cid cn fuel ((k + K) * limit)
            (acc ++ ((List.range K).map
              (fun i => (processEmails p now cid cn (E (k + i))).1)).flatten)).fetches + K,
         (paginate f p now cid cn fuel ((k + K) * limit)
            (acc ++ ((List.range K).map
              (fun i => (processEmails p now cid cn (E (k + i))).1)).flatten)).finished⟩ := by
  intro K
  induction K with
  | zero => intro k fuel acc _; simp
  | succ K ih =>
    intro k fuel acc hfull
    have h0 := hfull 0 (Nat.succ_pos K)
    simp only [Nat.add_zero] at h0
    have hne : ¬ (E k).isEmpty := by
      rw [List.isEmpty_iff]
      intro he
      rw [he] at h0
      simp [limit] at h0
    have hnl : ¬ (E k).length < limit := by
      rw [h0.2]
      exact lt_irrefl _
    have hstep : K + 1 + fuel = (K + fuel) + 1 := by omega
    rw [hstep]
    simp only [paginate]
    rw [h0.1]
    simp only [hne, hnl, if_neg, Bool.false_eq_true, not_false_eq_true,
      if_false]
    have hshift : ∀ i, i < K →
        pageEmails (f ((k + 1 + i) * limit)) = some (E (k + 1 + i)) ∧
        (E (k + 1 + i)).length = limit := by
      intro i hi
      have := hfull (i + 1) (by omega)
      have harith : k + (i + 1) = k + 1 + i := by omega
      rwa [harith] at this
    have := ih (k + 1) fuel (acc ++ (processEmails p now cid cn (E k)).1) hshift
    rw [show k * limit + limit = (k + 1) * limit by ring]
    rw [this]
    have hoff : k + 1 + K = k + (K + 1) := by omega
    have hrange : acc ++ (processEmails p now cid cn (E k)).1 ++
        ((List.range K).map
          (fun i => (processEmails p now cid cn (E (k + 1 + i))).1)).flatten =
        acc ++ ((List.range (K + 1)).map
          (fun i => (processEmails p now cid cn (E (k + i))).1)).flatten := by
      rw [List.range_succ_eq_map]
      simp only [List.map_cons, List.map_map, List.flatten_cons, Nat.add_zero,
        List.append_assoc]
      congr 3
      apply List.map_congr_left
      intro i _
      simp only [Function.comp_apply, Nat.succ_eq_add_one]
      have hxy : k + 1 + i = k + (i + 1) := by omega
      rw [hxy]
    rw [hoff, hrange]
    simp only [PagOut.mk.injEq, and_true, true_and]
    omega

/-! ## Orchestrator lemmas -/

/-- A run with a usable credential and a successful enumerator response:
the explicit success result and database, the aggregate being each
campaign's own pagination records concatenated in campaign order. -/
theorem run_success_shape (env : FetchEnv) (p : String → Option Int)
    (now : Int) (fuel t : Nat) (db : Db) (cs : List Campaign)
    (hkey : ¬ env.apiKey.getD placeholderKey = placeholderKey)
    (hcs : env.campaignsResp = .ok cs) :
    fetch_bounced_emails env p now fuel t db =
      (.success cs.length ((cs.map (perCampaign env p now fuel)).flatten).length
        (dateRange now),
       appendLog
         (replaceSnapshot db ((cs.map (perCampaign env p now fuel)).flatten) t)
         "success"
         (successMsg ((cs.map (perCampaign env p now fuel)).flatten).length
           cs.length)) := by
  simp only [fetch_bounced_emails, hcs]
  rw [if_neg hkey]
  rw [foldl_paginate env p now fuel cs []]
  simp

/-- Every run takes one of exactly three branches, each with an
explicitly computed result and database: missing/placeholder credential,
enumerator failure, or success. -/
theorem run_cases (env : FetchEnv) (p : String → Option Int) (now : Int)
    (fuel t : Nat) (db : Db) :
    (env.apiKey.getD placeholderKey = placeholderKey ∧
      fetch_bounced_emails env p now fuel t db =
        (.error missingKeyMsg, appendLog db "error" missingKeyMsg)) ∨
    (∃ m, env.campaignsResp = .error m ∧
      fetch_bounced_emails env p now fuel t db =
        (.error m, appendLog db "error" m)) ∨
    (∃ cs, env.campaignsResp = .ok cs ∧
      fetch_bounced_emails env p now fuel t db =
        (.success cs.length
          ((cs.map (perCampaign env p now fuel)).flatten).length (dateRange now),
         appendLog
           (replaceSnapshot db ((cs.map (perCampaign env p now fuel)).flatten) t)
           "success"
           (successMsg ((cs.map (perCampaign env p now fuel)).flatten).length
             cs.length))) := by
  by_cases hkey : env.apiKey.getD placeholderKey = placeholderKey
  · left
    refine ⟨hkey, ?_⟩
    simp only [fetch_bounced_emails]
    rw [if_pos hkey]
  · right
    cases hcs : env.campaignsResp with
    | error m =>
      left
      refine ⟨m, rfl, ?_⟩
      simp only [fetch_bounced_emails, hcs]
      rw [if_neg hkey]
    | ok cs =>
      right
      exact ⟨cs, rfl, run_success_shape env p now fuel t db cs hkey hcs⟩

/-- A campaign whose provider yields `K` full pages and then a page the
loop cannot extract emails from (failed request or unrecognized shape):
the loop ends with exactly the `K` pages' filtered records, after
`K + 1` fetches. -/
theorem paginate_full_then_stop (f : Nat → PageResult)
    (p : String → Option Int) (now : Int) (cid : Option Int)
    (cn : Option String) (E : Nat → List RawEntry) (K fuel : Nat)
    (hfull : ∀ i, i < K → pageEmails (f (i * limit)) = some (E i) ∧
      (E i).length = limit)
    (hstop : pageEmails (f (K * limit)) = none) (hfuel : K + 1 ≤ fuel) :
    paginate f p now cid cn fuel 0 [] =
      ⟨((List.range K).map
          (fun i => (processEmails p now cid cn (E i)).1)).flatten,
       K + 1, true⟩ := by
  obtain ⟨m, rfl⟩ : ∃ m, fuel = K + (m + 1) := ⟨fuel - K - 1, by omega⟩
  have hfull0 : ∀ i, i < K →
      pageEmails (f ((0 + i) * limit)) = some (E (0 + i)) ∧
      (E (0 + i)).length = limit := by
    intro i hi
    simpa using hfull i hi
  have h := paginate_full f p now cid cn E K 0 (m + 1) [] hfull0
  rw [show (0 : Nat) * limit = 0 by simp] at h
  rw [h, paginate_stop f p now cid cn m ((0 + K) * limit) _
    (by simpa using hstop)]
  simp [Nat.add_comm]

/-- `appendLog` does not touch the snapshot rows. -/
theorem appendLog_bounced_rows (db : Db) (st msg : String) :
    (appendLog db st msg).bounced_rows = db.bounced_rows := rfl

/-- Database states reachable from the initial empty database by runs of
the pipeline (the read endpoints do not change state). -/
inductive Reach : Db → Prop where
  | init : Reach dbInit
  | run (db : Db) (env : FetchEnv) (parseTs : String → Option Int)
      (now : Int) (fuel t : Nat) :
      Reach db → Reach (fetch_bounced_emails env parseTs now fuel t db).2

/-! ## Sample inputs for witnesses -/

/-- A parse function failing on every input (a timestamp string
`fromisoformat` rejects). -/
def parseNone : String → Option Int := fun _ => none

/-- A raw entry whose `sent_time` does not parse. -/
def entryBad : RawEntry := ⟨none, none, none, none, some "not-a-date", none, none⟩

/-- A raw entry with no `sent_time` at all. -/
def entryNoTime : RawEntry := ⟨none, none, none, none, none, none, none⟩

/-- A provider whose every statistics page is an empty bare list. -/
def fEmpty : Nat → PageResult := fun _ => .listShape []

/-- A stored record used to pre-populate sample snapshots. -/
def sampleRecord : BounceRecord := mkRecord (some 1) (some "one") entryNoTime "t0"

/-- A database already holding one snapshot row and one log row. -/
def dbPrior : Db := ⟨[([sampleRecord], 5)], [("success", "old")]⟩

/-- A run environment with the credential unset. -/
def envNoKey : FetchEnv := ⟨none, .ok [], fun _ _ => .listShape []⟩

/-- A run environment whose enumerator returns no campaigns. -/
def envEmpty : FetchEnv := ⟨some "k", .ok [], fun _ _ => .listShape []⟩

/-- Two sample campaigns. -/
def cA : Campaign := ⟨some 1, some "A"⟩

/-- See `cA`. -/
def cB : Campaign := ⟨some 2, some "B"⟩

/-- A run environment where campaign `cA`'s first statistics page fails
and every other page is an empty list. -/
def envFail : FetchEnv :=
  ⟨some "k", .ok [cA, cB],
   fun cid _ => if cid = some 1 then .httpError else .listShape []⟩

/-- A full statistics page of `limit` entries. -/
def page100 : List RawEntry := List.replicate 100 entryNoTime

/-- A run environment where campaign `cA` answers one full
`data`-wrapped page and then an unrecognized shape, while every other
campaign's pages are empty lists. -/
def envShape : FetchEnv :=
  ⟨some "k", .ok [cA, cB],
   fun cid off =>
     if cid = some 1 then
       (if off = 0 then .dataShape page100 else .badShape)
     else .listShape []⟩

/-! ## Claims -/

/-- **C1.** For every timestamp string `s` and instant `now`, the
recency filter admits the enclosing record iff `s` parses after the
code's `'Z' → '+00:00'` replacement (tolerating a trailing UTC
designator) and the parsed instant is at least `now` minus 7 days; an
admitted entry contributes exactly its record, an excluded one (in
particular every malformed `s`, where the caught parse failure makes the
filter answer `false`) contributes nothing, and in both cases the
remaining entries are still processed — nothing propagates, since the
embedded loop body is a total function. -/
theorem recency_filter_admits (p : String → Option Int) (now : Int)
    (cid : Option Int) (cn : Option String) (e : RawEntry)
    (rest : List RawEntry) (s : String)
    (hs : e.sent_time = some s) (hne : s ≠ "") :
    (recencyFilter p now s = true ↔
      ∃ v, p (s.replace "Z" "+00:00") = some v ∧ sevenDaysAgo now ≤ v) ∧
    (recencyFilter p now s = true →
      processEmails p now cid cn (e :: rest) =
        (mkRecord cid cn e s :: (processEmails p now cid cn rest).1,
         (processEmails p now cid cn rest).2)) ∧
    (recencyFilter p now s = false →
      (processEmails p now cid cn (e :: rest)).1 =
        (processEmails p now cid cn rest).1) := by
  refine ⟨?_, ?_, ?_⟩
  · unfold recencyFilter
    cases h : p (s.replace "Z" "+00:00") with
    | none => simp
    | some v => simp [h]
  · intro hadm
    unfold recencyFilter at hadm
    cases h : p (s.replace "Z" "+00:00") with
    | none => rw [h] at hadm; cases hadm
    | some v =>
      rw [h] at hadm
      simp only [decide_eq_true_eq] at hadm
      simp [processEmails, hs, hne, h, hadm]
  · intro hexc
    unfold recencyFilter at hexc
    cases h : p (s.replace "Z" "+00:00") with
    | none => simp [processEmails, hs, hne, h]
    | some v =>
      rw [h] at hexc
      simp only [decide_eq_false_iff_not] at hexc
      simp [processEmails, hs, hne, h, hexc]

/-- **C1 witness.** A concrete malformed timestamp: the filter answers
`false`, no record is produced, and the following entries are still
processed. -/
theorem recency_filter_admits_witness :
    ((recencyFilter parseNone 0 "not-a-date" = true ↔
      ∃ v, parseNone ("not-a-date".replace "Z" "+00:00") = some v ∧
        sevenDaysAgo 0 ≤ v) ∧
     (recencyFilter parseNone 0 "not-a-date" = true →
      processEmails parseNone 0 none none (entryBad :: [entryNoTime]) =
        (mkRecord none none entryBad "not-a-date" ::
          (processEmails parseNone 0 none none [entryNoTime]).1,
         (processEmails parseNone 0 none none [entryNoTime]).2)) ∧
     (recencyFilter parseNone 0 "not-a-date" = false →
      (processEmails parseNone 0 none none (entryBad :: [entryNoTime])).1 =
        (processEmails parseNone 0 none none [entryNoTime]).1)) :=
  recency_filter_admits parseNone 0 none none entryBad [entryNoTime]
    "not-a-date" rfl (by decide)

/-- **C2.** For every campaign whose provider returns `N` consecutive
full pages of exactly `limit` (100) entries followed by one short or
empty page, the pagination loop performs exactly `N + 1` page fetches
and then terminates (given at least `N + 1` fuel; the Python loop is
unbounded). -/
theorem pagination_fetch_count (f : Nat → PageResult)
    (p : String → Option Int) (now : Int) (cid : Option Int)
    (cn : Option String) (E : Nat → List RawEntry) (es : List RawEntry)
    (N fuel : Nat)
    (hfull : ∀ i, i < N → pageEmails (f (i * limit)) = some (E i) ∧
      (E i).length = limit)
    (hlast : pageEmails (f (N * limit)) = some es)
    (hshort : es.length < limit) (hfuel : N + 1 ≤ fuel) :
    (paginate f p now cid cn fuel 0 []).fetches = N + 1 ∧
    (paginate f p now cid cn fuel 0 []).finished = true := by
  obtain ⟨m, rfl⟩ : ∃ m, fuel = N + (m + 1) := ⟨fuel - N - 1, by omega⟩
  have hfull0 : ∀ i, i < N →
      pageEmails (f ((0 + i) * limit)) = some (E (0 + i)) ∧
      (E (0 + i)).length = limit := by
    intro i hi
    simpa using hfull i hi
  have h := paginate_full f p now cid cn E N 0 (m + 1) [] hfull0
  rw [show (0 : Nat) * limit = 0 by simp] at h
  rw [h, paginate_short f p now cid cn m ((0 + N) * limit) _ es
    (by simpa using hlast) hshort]
  simp [Nat.add_comm]

/-- **C2 witness.** A provider whose very first page is empty (`N = 0`):
exactly one fetch, loop done. -/
theorem pagination_fetch_count_witness :
    (paginate fEmpty parseNone 0 none none 1 0 []).fetches = 0 + 1 ∧
    (paginate fEmpty parseNone 0 none none 1 0 []).finished = true :=
  pagination_fetch_count fEmpty parseNone 0 none none (fun _ => []) [] 0 1
    (fun i hi => absurd hi (Nat.not_lt_zero i)) rfl (by decide) (by decide)

/-- **C3.** For every campaign in the run whose page fetch fails
(non-success HTTP status or transport error, both caught at line 156)
after `K` successful full pages, that campaign's contribution to the
aggregate is exactly the window-filtered records of those `K` pages and
its pagination stops after `K + 1` fetches; the stored aggregate is
still the concatenation of every campaign's own contribution (each a
function of that campaign's pages only), and the run as a whole
completes successfully. -/
theorem campaign_fetch_failure_isolated (env : FetchEnv)
    (p : String → Option Int) (now : Int) (fuel t K : Nat) (db : Db)
    (cs : List Campaign) (c : Campaign) (E : Nat → List RawEntry)
    (hkey : ¬ env.apiKey.getD placeholderKey = placeholderKey)
    (_hc : c ∈ cs) (hcs : env.campaignsResp = .ok cs)
    (hfull : ∀ i, i < K →
      pageEmails (env.pages c.id (i * limit)) = some (E i) ∧
      (E i).length = limit)
    (herr : env.pages c.id (K * limit) = .httpError)
    (hfuel : K + 1 ≤ fuel) :
    perCampaign env p now fuel c =
      ((List.range K).map
        (fun i => (processEmails p now c.id c.name (E i)).1)).flatten ∧
    (paginate (env.pages c.id) p now c.id c.name fuel 0 []).fetches =
      K + 1 ∧
    (paginate (env.pages c.id) p now c.id c.name fuel 0 []).finished =
      true ∧
    (fetch_bounced_emails env p now fuel t db).1 =
      RunResult.success cs.length
        ((cs.map (perCampaign env p now fuel)).flatten).length
        (dateRange now) ∧
    (fetch_bounced_emails env p now fuel t db).2.bounced_rows =
      [((cs.map (perCampaign env p now fuel)).flatten, t)] := by
  have hchar := paginate_full_then_stop (env.pages c.id) p now c.id c.name
    E K fuel hfull (by rw [herr]; rfl) hfuel
  refine ⟨?_, ?_, ?_, ?_, ?_⟩
  · unfold perCampaign
    rw [hchar]
  · rw [hchar]
  · rw [hchar]
  · rw [run_success_shape env p now fuel t db cs hkey hcs]
  · rw [run_success_shape env p now fuel t db cs hkey hcs]
    simp [appendLog, replaceSnapshot, insertBounced, deleteBounced]

/-- **C3 witness.** Campaign `cA`'s very first fetch fails (`K = 0`):
its contribution is empty, its pagination stops after the one fetch, and
the run succeeds with both campaigns' own contributions stored. -/
theorem campaign_fetch_failure_isolated_witness :
    perCampaign envFail parseNone 0 1 cA =
      ((List.range 0).map
        (fun i => (processEmails parseNone 0 cA.id cA.name
          ((fun _ => ([] : List RawEntry)) i)).1)).flatten ∧
    (paginate (envFail.pages cA.id) parseNone 0 cA.id cA.name 1 0
      []).fetches = 0 + 1 ∧
    (paginate (envFail.pages cA.id) parseNone 0 cA.id cA.name 1 0
      []).finished = true ∧
    (fetch_bounced_emails envFail parseNone 0 1 9 dbPrior).1 =
      RunResult.success ([cA, cB] : List Campaign).length
        ((([cA, cB] : List Campaign).map
          (perCampaign envFail parseNone 0 1)).flatten).length
        (dateRange 0) ∧
    (fetch_bounced_emails envFail parseNone 0 1 9 dbPrior).2.bounced_rows =
      [((([cA, cB] : List Campaign).map
          (perCampaign envFail parseNone 0 1)).flatten, 9)] :=
  campaign_fetch_failure_isolated envFail parseNone 0 1 9 0 dbPrior
    [cA, cB] cA (fun _ => []) (by decide) (List.mem_cons_self cA [cB]) rfl
    (fun i hi => absurd hi (Nat.not_lt_zero i)) (by decide) (by decide)

/-- **C4.** The fetcher accepts exactly two page shapes — a bare list,
or an object wrapping the list under a `data` key — and either shape, if
full, keeps the campaign's pagination going; any other shape stops
pagination for that campaign only (after the `K` accepted pages'
records), while the overall run still completes successfully with every
campaign's own contribution. -/
theorem unrecognized_shape_stops_campaign (env : FetchEnv)
    (p : String → Option Int) (now : Int) (fuel t K : Nat) (db : Db)
    (cs : List Campaign) (c : Campaign) (E : Nat → List RawEntry)
    (hkey : ¬ env.apiKey.getD placeholderKey = placeholderKey)
    (_hc : c ∈ cs) (hcs : env.campaignsResp = .ok cs)
    (hfull : ∀ i, i < K →
      (env.pages c.id (i * limit) = .listShape (E i) ∨
       env.pages c.id (i * limit) = .dataShape (E i)) ∧
      (E i).length = limit)
    (hbad : env.pages c.id (K * limit) = .badShape)
    (hfuel : K + 1 ≤ fuel) :
    perCampaign env p now fuel c =
      ((List.range K).map
        (fun i => (processEmails p now c.id c.name (E i)).1)).flatten ∧
    (paginate (env.pages c.id) p now c.id c.name fuel 0 []).fetches =
      K + 1 ∧
    (paginate (env.pages c.id) p now c.id c.name fuel 0 []).finished =
      true ∧
    (fetch_bounced_emails env p now fuel t db).1 =
      RunResult.success cs.length
        ((cs.map (perCampaign env p now fuel)).flatten).length
        (dateRange now) ∧
    (fetch_bounced_emails env p now fuel t db).2.bounced_rows =
      [((cs.map (perCampaign env p now fuel)).flatten, t)] := by
  have hfull2 : ∀ i, i < K →
      pageEmails (env.pages c.id (i * limit)) = some (E i) ∧
      (E i).length = limit := by
    intro i hi
    rcases hfull i hi with ⟨hsh | hsh, hlen⟩ <;> rw [hsh] <;>
      exact ⟨rfl, hlen⟩
  have hchar := paginate_full_then_stop (env.pages c.id) p now c.id c.name
    E K fuel hfull2 (by rw [hbad]; rfl) hfuel
  refine ⟨?_, ?_, ?_, ?_, ?_⟩
  · unfold perCampaign
    rw [hchar]
  · rw [hchar]
  · rw [hchar]
  · rw [run_success_shape env p now fuel t db cs hkey hcs]
  · rw [run_success_shape env p now fuel t db cs hkey hcs]
    simp [appendLog, replaceSnapshot, insertBounced, deleteBounced]

/-- **C4 witness.** Campaign `cA` answers one full `data`-wrapped page
(accepted) and then an unrecognized shape (`K = 1`): its pagination
stops after two fetches with that page's filtered records, and the run
still succeeds. -/
theorem unrecognized_shape_stops_campaign_witness :
    perCampaign envShape parseNone 0 2 cA =
      ((List.range 1).map
        (fun i => (processEmails parseNone 0 cA.id cA.name
          ((fun _ => page100) i)).1)).flatten ∧
    (paginate (envShape.pages cA.id) parseNone 0 cA.id cA.name 2 0
      []).fetches = 1 + 1 ∧
    (paginate (envShape.pages cA.id) parseNone 0 cA.id cA.name 2 0
      []).finished = true ∧
    (fetch_bounced_emails envShape parseNone 0 2 9 dbPrior).1 =
      RunResult.success ([cA, cB] : List Campaign).length
        ((([cA, cB] : List Campaign).map
          (perCampaign envShape parseNone 0 2)).flatten).length
        (dateRange 0) ∧
    (fetch_bounced_emails envShape parseNone 0 2 9 dbPrior).2.bounced_rows =
      [((([cA, cB] : List Campaign).map
          (perCampaign envShape parseNone 0 2)).flatten, 9)] :=
  unrecognized_shape_stops_campaign envShape parseNone 0 2 9 1 dbPrior
    [cA, cB] cA (fun _ => page100) (by decide)
    (List.mem_cons_self cA [cB]) rfl
    (by
      intro i hi
      interval_cases i
      exact ⟨Or.inr (by decide), by decide⟩)
    (by decide) (by decide)

/-- **C5.** For every execution of the ingestion run (any combination of
missing credential, enumerator failure, or success), the orchestrator
returns a structured result — `status: success` with counts, or
`status: error` with a message — and, being a total function of the
model, never lets an exception propagate; on every fatal failure an
error row with the failure detail is appended to the fetch log. -/
theorem run_returns_structured_result (env : FetchEnv)
    (p : String → Option Int) (now : Int) (fuel t : Nat) (db : Db) :
    (∃ nc nb dr, (fetch_bounced_emails env p now fuel t db).1 =
      RunResult.success nc nb dr) ∨
    (∃ m, (fetch_bounced_emails env p now fuel t db).1 = RunResult.error m ∧
      (fetch_bounced_emails env p now fuel t db).2.fetch_log =
        db.fetch_log ++ [("error", m)]) := by
  rcases run_cases env p now fuel t db with ⟨_, h⟩ | ⟨m, _, h⟩ | ⟨cs, _, h⟩
  · right
    exact ⟨missingKeyMsg, by rw [h], by simp [h, appendLog]⟩
  · right
    exact ⟨m, by rw [h], by simp [h, appendLog]⟩
  · left
    exact ⟨_, _, _, by rw [h]⟩

/-- **C6.** Every run that fails fatally (in particular when the
credential is unset or the placeholder) returns `status=error`, appends
an error outcome carrying the message to the fetch log, and leaves the
snapshot rows untouched, so a subsequent read still returns the prior
snapshot (or the empty sentinel if none existed). -/
theorem fatal_run_preserves_snapshot (env : FetchEnv)
    (p : String → Option Int) (now : Int) (fuel t : Nat) (db : Db)
    (m : String)
    (h : (fetch_bounced_emails env p now fuel t db).1 = RunResult.error m) :
    (fetch_bounced_emails env p now fuel t db).2.bounced_rows =
      db.bounced_rows ∧
    (fetch_bounced_emails env p now fuel t db).2.fetch_log =
      db.fetch_log ++ [("error", m)] ∧
    get_bounced_emails (fetch_bounced_emails env p now fuel t db).2 =
      get_bounced_emails db := by
  rcases run_cases env p now fuel t db with ⟨_, hr⟩ | ⟨m2, _, hr⟩ | ⟨cs, _, hr⟩
  · rw [hr] at h ⊢
    cases h
    exact ⟨rfl, rfl, rfl⟩
  · rw [hr] at h ⊢
    cases h
    exact ⟨rfl, rfl, rfl⟩
  · rw [hr] at h
    cases h

/-- **C6 witness.** With the credential unset and a prior snapshot in the
store, the run errors, the error is logged, and the prior snapshot is
still served. -/
theorem fatal_run_preserves_snapshot_witness :
    (fetch_bounced_emails envNoKey parseNone 0 1 9 dbPrior).2.bounced_rows =
      dbPrior.bounced_rows ∧
    (fetch_bounced_emails envNoKey parseNone 0 1 9 dbPrior).2.fetch_log =
      dbPrior.fetch_log ++ [("error", missingKeyMsg)] ∧
    get_bounced_emails (fetch_bounced_emails envNoKey parseNone 0 1 9 dbPrior).2 =
      get_bounced_emails dbPrior :=
  fatal_run_preserves_snapshot envNoKey parseNone 0 1 9 dbPrior
    missingKeyMsg rfl

/-- **C7.** If the enumerator returns an empty campaign list, the run
succeeds with `total_campaigns = 0` and `total_bounced_emails = 0`, and
the snapshot slot is replaced with the empty record sequence (so the
read endpoint serves the new empty snapshot, not the prior one). -/
theorem empty_campaign_list_success (env : FetchEnv)
    (p : String → Option Int) (now : Int) (fuel t : Nat) (db : Db)
    (hkey : ¬ env.apiKey.getD placeholderKey = placeholderKey)
    (hcs : env.campaignsResp = .ok []) :
    (fetch_bounced_emails env p now fuel t db).1 =
      RunResult.success 0 0 (dateRange now) ∧
    (fetch_bounced_emails env p now fuel t db).2.bounced_rows = [([], t)] ∧
    get_bounced_emails (fetch_bounced_emails env p now fuel t db).2 =
      ReadResult.success [] t 0 := by
  rw [run_success_shape env p now fuel t db [] hkey hcs]
  refine ⟨rfl, rfl, ?_⟩
  simp [get_bounced_emails, latestRow, appendLog, replaceSnapshot,
    insertBounced, deleteBounced]

/-- **C7 witness.** A concrete run over zero campaigns, starting from a
store that already holds a nonempty snapshot: the slot ends holding the
empty snapshot. -/
theorem empty_campaign_list_success_witness :
    (fetch_bounced_emails envEmpty parseNone 0 1 9 dbPrior).1 =
      RunResult.success 0 0 (dateRange 0) ∧
    (fetch_bounced_emails envEmpty parseNone 0 1 9 dbPrior).2.bounced_rows =
      [([], 9)] ∧
    get_bounced_emails (fetch_bounced_emails envEmpty parseNone 0 1 9 dbPrior).2 =
      ReadResult.success [] 9 0 :=
  empty_campaign_list_success envEmpty parseNone 0 1 9 dbPrior
    (by decide) rfl

/-- **C8.** For every snapshot `S`, two consecutive `replace(S)` calls
leave exactly one row holding `S` — not duplicated or accumulated — and
the read endpoint then returns `S` exactly once. -/
theorem replace_idempotent (db : Db) (S : List BounceRecord) (t1 t2 : Nat) :
    (replaceSnapshot (replaceSnapshot db S t1) S t2).bounced_rows =
      [(S, t2)] ∧
    get_bounced_emails (replaceSnapshot (replaceSnapshot db S t1) S t2) =
      ReadResult.success S t2 S.length := by
  refine ⟨rfl, ?_⟩
  simp [get_bounced_emails, latestRow, replaceSnapshot, insertBounced,
    deleteBounced]

/-- **C9.** In every reachable store state at most one snapshot row
exists, and every successful run installs the new snapshot as the single
row in one transition (the delete and insert commit together), so no
observable state has the old snapshot deleted without the new one
installed. -/
theorem single_current_snapshot :
    (∀ db, Reach db → db.bounced_rows.length ≤ 1) ∧
    (∀ (env : FetchEnv) (p : String → Option Int) (now : Int)
        (fuel t : Nat) (db : Db) (nc nb : Nat) (dr : String),
      (fetch_bounced_emails env p now fuel t db).1 =
        RunResult.success nc nb dr →
      ∃ snap,
        (fetch_bounced_emails env p now fuel t db).2.bounced_rows =
          [(snap, t)] ∧ snap.length = nb) := by
  constructor
  · intro db h
    induction h with
    | init => simp [dbInit]
    | run db env p now fuel t _ ih =>
      rcases run_cases env p now fuel t db with ⟨_, hr⟩ | ⟨m, _, hr⟩ |
        ⟨cs, _, hr⟩
      · rw [hr]
        exact ih
      · rw [hr]
        exact ih
      · rw [hr]
        simp [appendLog, replaceSnapshot, insertBounced, deleteBounced]
  · intro env p now fuel t db nc nb dr h
    rcases run_cases env p now fuel t db with ⟨_, hr⟩ | ⟨m, _, hr⟩ |
      ⟨cs, _, hr⟩
    · rw [hr] at h
      cases h
    · rw [hr] at h
      cases h
    · rw [hr] at h ⊢
      cases h
      exact ⟨_, rfl, rfl⟩

/-- **C10.** A raw entry whose `sent_time` is absent, `None`, or the
empty string is skipped silently — no record is constructed and no
malformed-timestamp warning is emitted — and processing continues with
the remaining entries; the equation holds for every parse function, so
the case is decided before timestamp parsing is ever consulted. -/
theorem missing_sent_time_skipped (p : String → Option Int) (now : Int)
    (cid : Option Int) (cn : Option String) (e : RawEntry)
    (rest : List RawEntry)
    (h : e.sent_time = none ∨ e.sent_time = some "") :
    processEmails p now cid cn (e :: rest) =
      processEmails p now cid cn rest := by
  rcases h with h | h <;> simp [processEmails, h]

/-- **C10 witness.** A concrete entry with no `sent_time`, in front of an
entry with an unparseable one: the first is dropped with no effect on
the records or warnings of the rest. -/
theorem missing_sent_time_skipped_witness :
    processEmails parseNone 0 none none (entryNoTime :: [entryBad]) =
      processEmails parseNone 0 none none [entryBad] :=
  missing_sent_time_skipped parseNone 0 none none entryNoTime [entryBad]
    (Or.inl rfl)

end BouncedEmails
